import Mathlib

/-!
Verification of the spotter ADS-B tracker core (src/main.rs).

The program ingests line-delimited hex-encoded ADS-B frames from a dump1090
feed, maintains a shared registry of airplanes (`Airplanes` from the external
`rsadsb_common` crate, a map from 24-bit ICAO address to `AirplaneState`),
and serves HTTP queries: a plaintext status page, the full registry, the
closest and furthest airplane, and lookup by ICAO address.

The embedding below models:
  * the registry's iteration sequence as a list of (ICAO, AirplaneState)
    pairs — the spec fixes no iteration order for the map ("no ordering
    guarantee required"), so theorems quantify over the sequence;
  * the selection loops of `closest_airplane` and `furthest_airplane`
    (main.rs:152-188) as folds over that sequence, with the `Option<f64>`
    comparison of the source mirrored on `Option ℚ` (distances are modelled
    as rationals: the claims under check are order-theoretic);
  * one iteration of the ingestion loop (main.rs:87-116) as a function from
    the read result to an outcome: a panic, an exit, or the list of registry
    operations (`action`, `prune`) performed, with the string slice
    `input[1..len - 2]`, `hex::decode` and the all-zero filter embedded at
    the byte level and the external `Frame::from_bytes` decoder abstracted
    as a parameter;
  * the `/airplane/:icao` handler and the `/` status page.
-/

/-- Coordinate record of a tracked airplane. Of the fields of
`rsadsb_common::AirplaneCoor` only `kilo_distance : Option<f64>` is read by
the code under verification (the selection loops); it is modelled as
`Option ℚ`. -/
structure Coords where
  kilo_distance : Option ℚ
deriving DecidableEq, Repr

/-- State of one tracked airplane. The source's `AirplaneState` carries
further fields (squawk, vertical speed, track, timestamps); none of them is
read by the selection or lookup code under verification, so only the
`coords` member appears here. -/
structure AirplaneState where
  coords : Coords
deriving DecidableEq, Repr

/-- 24-bit ICAO transponder address (the registry key). -/
abbrev ICAO := Nat

/-- The registry's iteration sequence: the pairs yielded by
`Airplanes::iter()` in order. The spec leaves the map's iteration order
unspecified, so theorems about the selection loops quantify over this
sequence. -/
abbrev Airplanes := List (ICAO × AirplaneState)

/-- Rust's derived `PartialOrd` comparison `<` on `Option<f64>`, as used in
`Some(kilo_distance) < inner_minimum.1.coords.kilo_distance`
(main.rs:162): `None` sorts below `Some`. -/
def optlt : Option ℚ → Option ℚ → Bool
  | none, none => false
  | none, some _ => true
  | some _, none => false
  | some a, some b => decide (a < b)

/-- Rust's `>` on `Option<f64>` (main.rs:181), i.e. `optlt` flipped. -/
def optgt (a b : Option ℚ) : Bool := optlt b a

/-- One iteration of the selection loop shared by `closest_airplane` and
`furthest_airplane` (main.rs:156-167 and 175-186): skip entries without a
defined distance; seed the running extremum with the first defined-distance
entry; replace it when the strict comparison `ocmp` (`<` for closest, `>`
for furthest) favours the new entry. -/
def selStep (ocmp : Option ℚ → Option ℚ → Bool)
    (minimum : Option (ICAO × AirplaneState)) (p : ICAO × AirplaneState) :
    Option (ICAO × AirplaneState) :=
  match p.2.coords.kilo_distance with
  | none => minimum
  | some kd =>
    let m1 := if minimum.isNone then some p else minimum
    match m1 with
    | none => none
    | some inner => if ocmp (some kd) inner.2.coords.kilo_distance then some p else m1

/-- `closest_airplane` handler (main.rs:152-169): fold of `selStep` with the
`<` comparison over the registry's iteration sequence. -/
def closest_airplane (l : Airplanes) : Option (ICAO × AirplaneState) :=
  l.foldl (selStep optlt) none

/-- `furthest_airplane` handler (main.rs:171-188): fold of `selStep` with
the `>` comparison over the registry's iteration sequence. -/
def furthest_airplane (l : Airplanes) : Option (ICAO × AirplaneState) :=
  l.foldl (selStep optgt) none

/-- The extremal defined distance of a registry sequence under the strict
comparison `ocmp`: `none` when no entry has a defined distance. -/
def extDist (ocmp : Option ℚ → Option ℚ → Bool) : Airplanes → Option ℚ
  | [] => none
  | p :: t =>
    match p.2.coords.kilo_distance, extDist ocmp t with
    | none, r => r
    | some d, none => some d
    | some d, some m => some (if ocmp (some d) (some m) then d else m)

/-- Specification-side selection rule: the first entry in iteration order
whose distance equals the extremal defined distance, `none` when no entry
has a defined distance. The selection loops are proved equal to this. -/
def firstExtremal (ocmp : Option ℚ → Option ℚ → Bool) (l : Airplanes) :
    Option (ICAO × AirplaneState) :=
  match extDist ocmp l with
  | none => none
  | some q => l.find? (fun p => decide (p.2.coords.kilo_distance = some q))

/-- Value of the selection fold when the running extremum is already seeded
with an entry `m` of defined distance `dm`: the seed survives unless some
entry of the remaining sequence strictly beats it under `ocmp`, in which
case the first entry attaining the remaining sequence's extremal distance
wins. Only used to state the closed form of the fold. -/
def seeded (ocmp : Option ℚ → Option ℚ → Bool) (m : ICAO × AirplaneState)
    (dm : ℚ) (t : Airplanes) : Option (ICAO × AirplaneState) :=
  match extDist ocmp t with
  | none => some m
  | some q =>
    if ocmp (some q) (some dm) = true
    then t.find? (fun p => decide (p.2.coords.kilo_distance = some q))
    else some m

/-- The properties of the comparison used by a selection loop that the
closed-form proof needs: a decidable strict linear order on the defined
distances. Both `optlt` and `optgt` satisfy them. -/
structure StrictCmp (ocmp : Option ℚ → Option ℚ → Bool) : Prop where
  irrefl : ∀ a : ℚ, ocmp (some a) (some a) = false
  asymm : ∀ a b : ℚ, ocmp (some a) (some b) = true → ocmp (some b) (some a) = false
  total : ∀ a b : ℚ, ocmp (some a) (some b) = false → ocmp (some b) (some a) = false → a = b
  trans : ∀ a b c : ℚ, ocmp (some a) (some b) = true → ocmp (some b) (some c) = true →
    ocmp (some a) (some c) = true

/-- Command-line arguments of the process (main.rs:18-27). The two socket
addresses configure I/O endpoints outside the embedding. -/
structure Args where
  lat : ℚ
  long : ℚ
  serve_addr : String
  dump1090_addr : String

/-- Rust `str::is_char_boundary` on the byte sequence of a (valid UTF-8)
string: position 0 and the end are boundaries, and an interior position is
a boundary iff the byte there is not a UTF-8 continuation byte. -/
def isCharBoundary (input : List Nat) (i : Nat) : Bool :=
  if i = 0 then true
  else if i = input.length then true
  else
    match input.get? i with
    | none => false
    | some b => decide (b < 128 ∨ 192 ≤ b)

/-- The string slice `&input[1 .. len - 2]` of main.rs:94, at the byte
level. Rust panics — modelled as `none` — when `len` is 1 or 2 (the end
index underflows below the start index) and when either bound is not a
character boundary; otherwise it yields the bytes at positions
1 .. len - 3. -/
def stripSlice (input : List Nat) : Option (List Nat) :=
  if 3 ≤ input.length ∧ isCharBoundary input 1 = true ∧
      isCharBoundary input (input.length - 2) = true
  then some ((input.take (input.length - 2)).drop 1)
  else none

/-- Value of one ASCII hex digit, as accepted by the `hex` crate. -/
def hexDigit (c : Nat) : Option Nat :=
  if 48 ≤ c ∧ c ≤ 57 then some (c - 48)
  else if 97 ≤ c ∧ c ≤ 102 then some (c - 87)
  else if 65 ≤ c ∧ c ≤ 70 then some (c - 55)
  else none

/-- `hex::decode` (main.rs:96): fails on odd length or any non-hex-digit
byte, otherwise turns each pair of hex digits into one byte. -/
def hexDecode : List Nat → Option (List Nat)
  | [] => some []
  | [_] => none
  | c1 :: c2 :: rest =>
    match hexDigit c1, hexDigit c2, hexDecode rest with
    | some h, some lo, some bs => some ((16 * h + lo) :: bs)
    | _, _, _ => none

/-- Result of `stream.read_line` for one loop iteration: an I/O error, or
`len` bytes appended to the buffer (`line []` is the zero-length read that
signals end-of-stream). -/
inductive ReadResult where
  | err : ReadResult
  | line : List Nat → ReadResult
deriving DecidableEq, Repr

/-- A registry operation performed by the ingestion loop: `action` is
`Airplanes::action(frame, position, max_range)` and `prune` is
`Airplanes::prune(seconds)` (main.rs:110-113). `F` is the frame type of the
external decoder. -/
inductive RegOp (F : Type) where
  | action : F → ℚ × ℚ → ℚ → RegOp F
  | prune : Nat → RegOp F
deriving DecidableEq, Repr

/-- Outcome of one iteration of the ingestion loop: an unrecoverable panic,
an exit from the loop, or continuation carrying the list of registry
operations performed this iteration. The loop body of main.rs:87-116
contains no `break` or `return`, so `exit` exists only to state that it is
never produced. -/
inductive Outcome (F : Type) where
  | panic : Outcome F
  | exit : Outcome F
  | next : List (RegOp F) → Outcome F
deriving DecidableEq, Repr

/-- One iteration of the ingestion loop (main.rs:87-116), parameterised by
the external frame decoder `decode` (`Frame::from_bytes`, whose leftover-
input component the source discards). A failed `read_line` falls through
the `if let Ok`; a zero-length read hits `continue`; then the line is
sliced, hex-decoded, filtered for the all-zero idle payload, frame-decoded,
and on full success `action` and `prune(120)` run under the registry lock.  -/
def loopBody (F : Type) (decode : List Nat → Option F) (args : Args)
    (r : ReadResult) : Outcome F :=
  match r with
  | .err => .next []
  | .line input =>
    if input.length = 0 then .next []
    else
      match stripSlice input with
      | none => .panic
      | some hexPayload =>
        match hexDecode hexPayload with
        | none => .next []
        | some bytes =>
          if bytes.all (fun b => b == 0) then .next []
          else
            match decode bytes with
            | none => .next []
            | some frame => .next [.action frame (args.lat, args.long) 500, .prune 120]

/-- Interpretation of a list of registry operations against an abstract
registry type `R` with the external crate's `action` and `prune` given as
parameters: the state after running the operations in order. -/
def applyOps (F R : Type) (act : R → F → ℚ × ℚ → ℚ → R) (pr : R → Nat → R) :
    R → List (RegOp F) → R
  | st, [] => st
  | st, RegOp.action f pos mr :: rest => applyOps F R act pr (act st f pos mr) rest
  | st, RegOp.prune s :: rest => applyOps F R act pr (pr st s) rest

/-- Modelled from the spec: `ICAO::from_str` lives in the external
`adsb_deku` crate, which is not part of this repository. Per the spec the
identifier "must conform to the expected format (fixed-length hex
address)" — a 24-bit, six-hex-digit transponder address — and malformed
input is a parse failure. -/
def icaoFromStr (s : List Char) : Option Nat :=
  if s.length = 6 then
    s.foldl (fun acc c =>
      match acc, hexDigit c.toNat with
      | some a, some d => some (16 * a + d)
      | _, _ => none) (some 0)
  else none

/-- Modelled from the spec: `Airplanes::aircraft_details` lives in the
external `rsadsb_common` crate. Per the spec the by-identifier query is
`get(identifier) -> TrackedEntity | NotFound`, modelled as lookup in the
registry sequence. -/
def aircraft_details (reg : Airplanes) (icao : ICAO) : Option AirplaneState :=
  (reg.find? (fun p => p.1 == icao)).map (fun p => p.2)

/-- `airplane_icao` handler (main.rs:190-199). The source parses the path
parameter with `ICAO::from_str(&icao).unwrap()`: the outer `none` models
the panic of that `unwrap` on a malformed identifier, and `some d` models
the JSON response with details `d` (`some none` serialises as `null`, the
not-found answer). -/
def airplane_icao (reg : Airplanes) (icao : List Char) :
    Option (Option AirplaneState) :=
  match icaoFromStr icao with
  | none => none
  | some addr => some (aircraft_details reg addr)

/-- The routes registered on the axum router (main.rs:43-78). -/
def routes : List String :=
  ["/", "/airplanes", "/airplane/closest", "/airplane/furthest", "/airplane/:icao"]

/-- Body of the `home` handler (main.rs:120-143), with the `Display`
renderings of the two f64 coordinates abstracted as the strings `latS` and
`longS` and the tracked-airplane count `a.len()` rendered in decimal. -/
def homeBody (latS longS : String) (count : Nat) : String :=
  "Spotter - Rust ADS-B processor and web server providing information in json format\n\n==[Info]==========\nLat: "
    ++ latS ++ "\nLong: " ++ longS ++ "\nAirplanes tracked: " ++ toString count
    ++ "\n\n==[Protocol]=====\n/airplanes\n/airplanes/closest\n/airplanes/furthest\n/airplanes/:icao\n"

/-- Boolean list-prefix test, used to define substring containment. -/
def startsWithB : List Char → List Char → Bool
  | [], _ => true
  | _ :: _, [] => false
  | c :: cs, d :: ds => c == d && startsWithB cs ds

/-- Boolean substring containment: `needle` occurs contiguously in the
haystack. -/
def containsSub (needle : List Char) : List Char → Bool
  | [] => needle.isEmpty
  | c :: rest => startsWithB needle (c :: rest) || containsSub needle rest

/-- A successful slice of main.rs:94 implies the line had at least 3 bytes. -/
theorem stripSlice_some_len (bs p : List Nat) (h : stripSlice bs = some p) :
    3 ≤ bs.length := by
  unfold stripSlice at h
  split at h
  · rename_i hc
    exact hc.1
  · exact Option.noConfusion h

/-- Exhaustive case analysis of one ingestion-loop iteration: it either
performs no registry operation, or panics, or the line passed every stage
and exactly `action` then `prune 120` ran. -/
theorem loopBody_cases (F : Type) (decode : List Nat → Option F) (args : Args)
    (r : ReadResult) :
    loopBody F decode args r = .next [] ∨
    loopBody F decode args r = .panic ∨
    (∃ bs hexPayload bytes frame, r = .line bs ∧ stripSlice bs = some hexPayload ∧
      hexDecode hexPayload = some bytes ∧ bytes.all (fun b => b == 0) = false ∧
      decode bytes = some frame ∧
      loopBody F decode args r =
        .next [RegOp.action frame (args.lat, args.long) 500, RegOp.prune 120]) := by
  cases r with
  | err => exact Or.inl rfl
  | line input =>
    simp only [loopBody]
    split
    · exact Or.inl rfl
    · split
      · exact Or.inr (Or.inl rfl)
      · rename_i hexPayload hstrip
        split
        · exact Or.inl rfl
        · rename_i bytes hhex
          split
          · exact Or.inl rfl
          · rename_i hall
            split
            · exact Or.inl rfl
            · rename_i frame hdec
              exact Or.inr (Or.inr ⟨input, hexPayload, bytes, frame, rfl, hstrip, hhex,
                Bool.eq_false_iff.mpr hall, hdec, rfl⟩)

/-- C2: refuted — the claim says no feed line can terminate the ingestion
loop, but a line consisting of a single newline byte (`read_line` returns
length 1) makes the slice `input[1 .. len - 2]` of main.rs:94 panic: the
end index underflows below the start index. The loop iteration ends in a
panic for every decoder and configuration. -/
theorem short_line_panics (F : Type) (decode : List Nat → Option F) (args : Args) :
    loopBody F decode args (.line [10]) = .panic := rfl

/-- C10: a zero-length read (end-of-stream) is skipped by the `continue` at
main.rs:90-92 with no registry operation, and no read result whatsoever can
make the loop body exit the loop — the body has no break path, so after the
feed closes the process keeps looping without detecting the disconnection. -/
theorem eof_read_is_skipped (F : Type) (decode : List Nat → Option F) (args : Args) :
    loopBody F decode args (.line []) = .next [] ∧
    ∀ r, loopBody F decode args r ≠ .exit := by
  refine ⟨rfl, fun r => ?_⟩
  rcases loopBody_cases F decode args r with h | h | ⟨_, _, _, _, _, _, _, _, _, h⟩ <;>
    rw [h] <;> exact fun hc => Outcome.noConfusion hc

/-- C5: a line whose stripped payload fails hex-decoding, or decodes to the
all-zero idle payload, or fails frame-decoding, is skipped with no registry
operation at all — neither `action` nor `prune` runs, so interpreting the
(empty) operation list leaves any registry state unchanged. -/
theorem failed_line_no_registry_op (F : Type) (decode : List Nat → Option F)
    (args : Args) (bs hexPayload : List Nat)
    (hstrip : stripSlice bs = some hexPayload)
    (hfail : hexDecode hexPayload = none ∨
      ∃ bytes, hexDecode hexPayload = some bytes ∧
        (bytes.all (fun b => b == 0) = true ∨ decode bytes = none)) :
    loopBody F decode args (.line bs) = .next [] ∧
    ∀ (R : Type) (act : R → F → ℚ × ℚ → ℚ → R) (pr : R → Nat → R) (st : R),
      applyOps F R act pr st [] = st := by
  have hlen : ¬bs.length = 0 := by
    have := stripSlice_some_len bs hexPayload hstrip
    omega
  refine ⟨?_, fun R act pr st => rfl⟩
  rcases hfail with hnone | ⟨bytes, hbytes, hrest⟩
  · simp [loopBody, hlen, hstrip, hnone]
  · rcases hrest with hzero | hdec
    · simp [loopBody, hlen, hstrip, hbytes, hzero]
    · simp [loopBody, hlen, hstrip, hbytes, hdec]

/-- Witness for C5: the line `*zz;\n` strips to the two bytes `zz`, which
fail hex-decoding, and the iteration performs no registry operation. -/
theorem failed_line_no_registry_op_witness :
    stripSlice [42, 122, 122, 59, 10] = some [122, 122] ∧
    hexDecode [122, 122] = none ∧
    loopBody Unit (fun _ => none) ⟨0, 0, "", ""⟩ (.line [42, 122, 122, 59, 10]) =
      .next [] :=
  ⟨by decide, by decide,
    (failed_line_no_registry_op Unit (fun _ => none) ⟨0, 0, "", ""⟩
      [42, 122, 122, 59, 10] [122, 122] (by decide) (Or.inl (by decide))).1⟩

/-- C6: on a fully successful decode the iteration performs exactly
`action frame (lat, long) 500` followed by `prune 120`, and conversely a
`prune` (or any registry operation) happens only on such an iteration:
every other read result leaves the operation list empty. Eviction is
therefore coupled to successful decodes, never to a timer or a failed
line. -/
theorem successful_decode_ops (F : Type) (decode : List Nat → Option F) (args : Args) :
    (∀ bs hexPayload bytes frame,
      stripSlice bs = some hexPayload →
      hexDecode hexPayload = some bytes →
      bytes.all (fun b => b == 0) = false →
      decode bytes = some frame →
      loopBody F decode args (.line bs) =
        .next [RegOp.action frame (args.lat, args.long) 500, RegOp.prune 120]) ∧
    (∀ r ops, loopBody F decode args r = .next ops →
      ops = [] ∨ ∃ bs hexPayload bytes frame,
        r = .line bs ∧ stripSlice bs = some hexPayload ∧
        hexDecode hexPayload = some bytes ∧ bytes.all (fun b => b == 0) = false ∧
        decode bytes = some frame ∧
        ops = [RegOp.action frame (args.lat, args.long) 500, RegOp.prune 120]) := by
  constructor
  · intro bs hexPayload bytes frame hstrip hhex hall hdec
    have hlen : ¬bs.length = 0 := by
      have := stripSlice_some_len bs hexPayload hstrip
      omega
    simp [loopBody, hlen, hstrip, hhex, hall, hdec]
  · intro r ops hops
    rcases loopBody_cases F decode args r with h | h | ⟨bs, hexPayload, bytes, frame,
      hr, hstrip, hhex, hall, hdec, h⟩
    · rw [h] at hops
      exact Or.inl (Outcome.next.inj hops).symm
    · rw [h] at hops
      exact Outcome.noConfusion hops
    · rw [h] at hops
      exact Or.inr ⟨bs, hexPayload, bytes, frame, hr, hstrip, hhex, hall, hdec,
        (Outcome.next.inj hops).symm⟩

/-- Witness for C6: the line `*0102;\n` strips to the hex payload `0102`,
decodes to the bytes `[1, 2]`, is not the idle payload, frame-decodes under
the trivial decoder, and the iteration runs exactly `action` with the
observer location and range 500 followed by `prune 120`. -/
theorem successful_decode_ops_witness :
    loopBody Unit (fun _ => some ()) ⟨0, 0, "", ""⟩
        (.line [42, 48, 49, 48, 50, 59, 10]) =
      .next [RegOp.action () (0, 0) 500, RegOp.prune 120] :=
  (successful_decode_ops Unit (fun _ => some ()) ⟨0, 0, "", ""⟩).1
    [42, 48, 49, 48, 50, 59, 10] [48, 49, 48, 50] [1, 2] ()
    (by decide) (by decide) (by decide) rfl

/-- Every position of an all-ASCII byte sequence is a character boundary. -/
theorem isCharBoundary_of_ascii (bs : List Nat) (i : Nat) (hi : i < bs.length)
    (h : ∀ b ∈ bs, b < 128) : isCharBoundary bs i = true := by
  unfold isCharBoundary
  split
  · rfl
  · split
    · rfl
    · rw [List.get?_eq_get hi]
      have hb := h _ (List.get_mem bs i hi)
      simp only [decide_eq_true_eq]
      exact Or.inl hb

/-- C7: whatever payload the slice of main.rs:94 submits to hex-decoding is
exactly the line with its leading framing byte and its two trailing
terminator bytes removed — position `i` of the payload is position `i + 1`
of the line, and the payload is 3 bytes shorter; moreover for an all-ASCII
line of length at least 3 (every feed line that can hex-decode is ASCII)
the slice succeeds, so a payload is indeed submitted. -/
theorem payload_is_middle_slice (bs : List Nat) (hlen : 3 ≤ bs.length) :
    (∀ p, stripSlice bs = some p →
      p.length = bs.length - 3 ∧ ∀ i, i < p.length → p[i]? = bs[i + 1]?) ∧
    ((∀ b ∈ bs, b < 128) → ∃ p, stripSlice bs = some p) := by
  constructor
  · intro p hp
    unfold stripSlice at hp
    split at hp
    · injection hp with hp
      subst hp
      constructor
      · simp only [List.length_drop, List.length_take]
        omega
      · intro i hi
        simp only [List.length_drop, List.length_take] at hi
        rw [List.getElem?_drop]
        rw [List.getElem?_take_of_lt (by omega)]
        rw [Nat.add_comm]
    · exact Option.noConfusion hp
  · intro hascii
    refine ⟨(bs.take (bs.length - 2)).drop 1, ?_⟩
    unfold stripSlice
    rw [if_pos ⟨hlen, isCharBoundary_of_ascii bs 1 (by omega) hascii,
      isCharBoundary_of_ascii bs (bs.length - 2) (by omega) hascii⟩]

/-- Witness for C7: the line `*8D;\n` (bytes 42, 56, 68, 59, 10) has length
5, strips successfully, and the submitted payload is the middle bytes. -/
theorem payload_is_middle_slice_witness :
    3 ≤ [42, 56, 68, 59, 10].length ∧
    ((∀ p, stripSlice [42, 56, 68, 59, 10] = some p →
      p.length = [42, 56, 68, 59, 10].length - 3 ∧
      ∀ i, i < p.length → p[i]? = [42, 56, 68, 59, 10][i + 1]?) ∧
    ((∀ b ∈ [42, 56, 68, 59, 10], b < 128) →
      ∃ p, stripSlice [42, 56, 68, 59, 10] = some p)) :=
  ⟨by decide, payload_is_middle_slice [42, 56, 68, 59, 10] (by decide)⟩

/-- C1: refuted by the code — `airplane_icao` (main.rs:197) parses the path
parameter with `ICAO::from_str(&icao).unwrap()`, so the malformed
identifier "zzz" makes the handler panic (`none`) instead of returning an
invalid-input response, while a well-formed but absent identifier such as
"abc123" against an empty registry does return the not-found answer
(`some none`, serialised as `null`). -/
theorem malformed_icao_panics :
    airplane_icao [] ("zzz".data) = none ∧
    airplane_icao [] ("abc123".data) = some none := by decide

/-- A list is a prefix of itself followed by anything. -/
theorem startsWithB_self_append (nd rest : List Char) :
    startsWithB nd (nd ++ rest) = true := by
  induction nd with
  | nil => rfl
  | cons c cs ih => simp [startsWithB, ih]

/-- A prefix is in particular a contained substring. -/
theorem containsSub_of_startsWithB (nd hay : List Char)
    (h : startsWithB nd hay = true) : containsSub nd hay = true := by
  cases hay with
  | nil =>
    cases nd with
    | nil => rfl
    | cons c cs => exact Bool.noConfusion h
  | cons c rest => simp [containsSub, h]

/-- Substring containment is preserved by prepending material. -/
theorem containsSub_append_left (nd pre hay : List Char)
    (h : containsSub nd hay = true) : containsSub nd (pre ++ hay) = true := by
  induction pre with
  | nil => exact h
  | cons c cs ih => simp [containsSub, ih]

/-- A list occurs as a substring wherever it appears between two others. -/
theorem containsSub_mid (nd pre suf : List Char) :
    containsSub nd (pre ++ (nd ++ suf)) = true :=
  containsSub_append_left nd pre (nd ++ suf)
    (containsSub_of_startsWithB nd (nd ++ suf) (startsWithB_self_append nd suf))

/-- C9 counterexample: the route `/airplane/closest` is served by the router
(main.rs:58-64) but does not occur anywhere in the `/` status body — the
body's protocol section lists `/airplanes/closest` (main.rs:131-135)
instead, so the status page does not contain a listing of the routes the
API serves. -/
theorem home_route_listing_mismatch :
    "/airplane/closest" ∈ routes ∧
    containsSub ("/airplane/closest".data) ((homeBody "1.0" "2.0" 0).data) = false := by
  constructor
  · decide
  · decide

/-- C9 amended: the `/` status body contains the rendered observer
coordinates, the tracked-airplane count, and a fixed four-line route
listing — but the listing's entries are `/airplanes`, `/airplanes/closest`,
`/airplanes/furthest`, `/airplanes/:icao`, of which only `/airplanes` is a
route the router actually serves; the other three misname the served
`/airplane/...` routes. -/
theorem home_body_contents (latS longS : String) (count : Nat) :
    containsSub latS.data (homeBody latS longS count).data = true ∧
    containsSub longS.data (homeBody latS longS count).data = true ∧
    containsSub (toString count).data (homeBody latS longS count).data = true ∧
    containsSub ("/airplanes".data) (homeBody latS longS count).data = true ∧
    containsSub ("/airplanes/closest".data) (homeBody latS longS count).data = true ∧
    containsSub ("/airplanes/furthest".data) (homeBody latS longS count).data = true ∧
    containsSub ("/airplanes/:icao".data) (homeBody latS longS count).data = true ∧
    "/airplanes" ∈ routes ∧ "/airplanes/closest" ∉ routes ∧
    "/airplanes/furthest" ∉ routes ∧ "/airplanes/:icao" ∉ routes := by
  unfold homeBody
  simp only [String.data_append, List.append_assoc]
  refine ⟨containsSub_mid _ _ _,
    containsSub_append_left _ _ _ (containsSub_append_left _ _ _
      (containsSub_append_left _ _ _ (containsSub_of_startsWithB _ _
        (startsWithB_self_append _ _)))),
    containsSub_append_left _ _ _ (containsSub_append_left _ _ _
      (containsSub_append_left _ _ _ (containsSub_append_left _ _ _
        (containsSub_append_left _ _ _ (containsSub_of_startsWithB _ _
          (startsWithB_self_append _ _)))))),
    ?_, ?_, ?_, ?_, by decide, by decide, by decide, by decide⟩ <;>
  · exact containsSub_append_left _ _ _ (containsSub_append_left _ _ _
      (containsSub_append_left _ _ _ (containsSub_append_left _ _ _
        (containsSub_append_left _ _ _ (containsSub_append_left _ _ _ (by decide))))))

/-- `optlt` restricted to defined distances is a strict linear order. -/
theorem strictCmp_optlt : StrictCmp optlt := by
  constructor
  · intro a
    simp [optlt]
  · intro a b h
    simp only [optlt, decide_eq_true_eq] at h
    simp only [optlt, decide_eq_false_iff_not]
    exact not_lt.mpr h.le
  · intro a b h1 h2
    simp only [optlt, decide_eq_false_iff_not] at h1 h2
    exact le_antisymm (not_lt.mp h2) (not_lt.mp h1)
  · intro a b c h1 h2
    simp only [optlt, decide_eq_true_eq] at h1 h2 ⊢
    exact lt_trans h1 h2

/-- `optgt` restricted to defined distances is a strict linear order. -/
theorem strictCmp_optgt : StrictCmp optgt := by
  constructor
  · intro a
    simp [optgt, optlt]
  · intro a b h
    simp only [optgt, optlt, decide_eq_true_eq] at h
    simp only [optgt, optlt, decide_eq_false_iff_not]
    exact not_lt.mpr h.le
  · intro a b h1 h2
    simp only [optgt, optlt, decide_eq_false_iff_not] at h1 h2
    exact le_antisymm (not_lt.mp h1) (not_lt.mp h2)
  · intro a b c h1 h2
    simp only [optgt, optlt, decide_eq_true_eq] at h1 h2 ⊢
    exact lt_trans h2 h1

/-- An entry without a defined distance leaves the running extremum alone. -/
theorem selStep_none_dist (ocmp : Option ℚ → Option ℚ → Bool)
    (acc : Option (ICAO × AirplaneState)) (p : ICAO × AirplaneState)
    (h : p.2.coords.kilo_distance = none) : selStep ocmp acc p = acc := by
  unfold selStep
  rw [h]

/-- With a seeded extremum, the step keeps it unless the comparison favours
the new entry. -/
theorem selStep_some_acc (ocmp : Option ℚ → Option ℚ → Bool)
    (m p : ICAO × AirplaneState) (kd : ℚ)
    (h : p.2.coords.kilo_distance = some kd) :
    selStep ocmp (some m) p =
      if ocmp (some kd) m.2.coords.kilo_distance = true then some p else some m := by
  unfold selStep
  rw [h]
  rfl

/-- From an empty extremum, the first defined-distance entry seeds it. -/
theorem selStep_some_none (ocmp : Option ℚ → Option ℚ → Bool)
    (p : ICAO × AirplaneState) (kd : ℚ)
    (h : p.2.coords.kilo_distance = some kd) : selStep ocmp none p = some p := by
  unfold selStep
  rw [h]
  show (if ocmp (some kd) p.2.coords.kilo_distance = true then some p else some p) = some p
  exact ite_self (some p)


/-- Rewriting lemma: `seeded` over a sequence with no defined distance. -/
theorem seeded_none (ocmp : Option ℚ → Option ℚ → Bool)
    (m : ICAO × AirplaneState) (dm : ℚ) (t : Airplanes)
    (h : extDist ocmp t = none) : seeded ocmp m dm t = some m := by
  unfold seeded
  rw [h]

/-- Rewriting lemma: `seeded` over a sequence with extremal distance `q`. -/
theorem seeded_some (ocmp : Option ℚ → Option ℚ → Bool)
    (m : ICAO × AirplaneState) (dm q : ℚ) (t : Airplanes)
    (h : extDist ocmp t = some q) :
    seeded ocmp m dm t =
      if ocmp (some q) (some dm) = true
      then t.find? (fun p => decide (p.2.coords.kilo_distance = some q))
      else some m := by
  unfold seeded
  rw [h]

/-- A distance-less head does not change the extremal distance. -/
theorem extDist_cons_none (ocmp : Option ℚ → Option ℚ → Bool)
    (p : ICAO × AirplaneState) (t : Airplanes)
    (h : p.2.coords.kilo_distance = none) :
    extDist ocmp (p :: t) = extDist ocmp t := by
  simp only [extDist, h]

/-- The head's distance is extremal when the tail has none. -/
theorem extDist_cons_some_none (ocmp : Option ℚ → Option ℚ → Bool)
    (p : ICAO × AirplaneState) (t : Airplanes) (d : ℚ)
    (hp : p.2.coords.kilo_distance = some d) (ht : extDist ocmp t = none) :
    extDist ocmp (p :: t) = some d := by
  simp only [extDist, hp, ht]

/-- Extremal distance of a cons with defined head and tail distances. -/
theorem extDist_cons_some_some (ocmp : Option ℚ → Option ℚ → Bool)
    (p : ICAO × AirplaneState) (t : Airplanes) (d q' : ℚ)
    (hp : p.2.coords.kilo_distance = some d) (ht : extDist ocmp t = some q') :
    extDist ocmp (p :: t) = some (if ocmp (some d) (some q') = true then d else q') := by
  simp only [extDist, hp, ht]

/-- Closed form of the selection fold from a seeded extremum with defined
distance. -/
theorem foldl_selStep_some (ocmp : Option ℚ → Option ℚ → Bool) (H : StrictCmp ocmp)
    (t : Airplanes) :
    ∀ (m : ICAO × AirplaneState) (dm : ℚ), m.2.coords.kilo_distance = some dm →
      t.foldl (selStep ocmp) (some m) = seeded ocmp m dm t := by
  induction t with
  | nil =>
    intro m dm hm
    rfl
  | cons p t ih =>
    intro m dm hm
    rw [List.foldl_cons]
    rcases hp : p.2.coords.kilo_distance with _ | d
    · rw [selStep_none_dist ocmp (some m) p hp, ih m dm hm]
      rcases het : extDist ocmp t with _ | q
      · rw [seeded_none ocmp m dm t het,
          seeded_none ocmp m dm (p :: t) (by rw [extDist_cons_none ocmp p t hp, het])]
      · rw [seeded_some ocmp m dm q t het,
          seeded_some ocmp m dm q (p :: t) (by rw [extDist_cons_none ocmp p t hp, het])]
        by_cases hc : ocmp (some q) (some dm) = true
        · rw [if_pos hc, if_pos hc, List.find?_cons_of_neg _ (by simp [hp])]
        · rw [if_neg hc, if_neg hc]
    · rw [selStep_some_acc ocmp m p d hp, hm]
      rcases het : extDist ocmp t with _ | q'
      · have he := extDist_cons_some_none ocmp p t d hp het
        rw [seeded_some ocmp m dm d (p :: t) he]
        by_cases hc : ocmp (some d) (some dm) = true
        · rw [if_pos hc, ih p d hp, seeded_none ocmp p d t het, if_pos hc,
            List.find?_cons_of_pos _ (by simp [hp])]
        · rw [if_neg hc, ih m dm hm, seeded_none ocmp m dm t het, if_neg hc]
      · have he := extDist_cons_some_some ocmp p t d q' hp het
        rw [seeded_some ocmp m dm (if ocmp (some d) (some q') = true then d else q')
          (p :: t) he]
        by_cases hc : ocmp (some d) (some dm) = true
        · rw [if_pos hc, ih p d hp, seeded_some ocmp p d q' t het]
          by_cases hc2 : ocmp (some q') (some d) = true
          · have hdq : ocmp (some d) (some q') = false := H.asymm q' d hc2
            have hq : (if ocmp (some d) (some q') = true then d else q') = q' :=
              if_neg (Bool.eq_false_iff.mp hdq)
            rw [hq, if_pos hc2, if_pos (H.trans q' d dm hc2 hc)]
            have hne : ¬(p.2.coords.kilo_distance = some q') := by
              rw [hp]
              intro heq
              have hd' : d = q' := Option.some.inj heq
              rw [hd'] at hc2
              rw [H.irrefl q'] at hc2
              exact Bool.noConfusion hc2
            rw [List.find?_cons_of_neg _ (by simp only [decide_eq_true_eq]; exact hne)]
          · rw [if_neg hc2]
            by_cases hc3 : ocmp (some d) (some q') = true
            · have hq : (if ocmp (some d) (some q') = true then d else q') = d :=
                if_pos hc3
              rw [hq, if_pos hc, List.find?_cons_of_pos _ (by simp [hp])]
            · have hc2f : ocmp (some q') (some d) = false := Bool.eq_false_iff.mpr hc2
              have hc3f : ocmp (some d) (some q') = false := Bool.eq_false_iff.mpr hc3
              have hdq : d = q' := H.total d q' hc3f hc2f
              have hq : (if ocmp (some d) (some q') = true then d else q') = q' :=
                if_neg hc3
              rw [hq, if_pos (by rw [← hdq]; exact hc),
                List.find?_cons_of_pos _ (by simp [hp, hdq])]
        · rw [if_neg hc, ih m dm hm, seeded_some ocmp m dm q' t het]
          by_cases hc2 : ocmp (some q') (some dm) = true
          · have hc3 : ocmp (some d) (some q') = false := by
              by_cases hdq : ocmp (some d) (some q') = true
              · exact absurd (H.trans d q' dm hdq hc2) hc
              · exact Bool.eq_false_iff.mpr hdq
            have hq : (if ocmp (some d) (some q') = true then d else q') = q' :=
              if_neg (Bool.eq_false_iff.mp hc3)
            rw [hq, if_pos hc2, if_pos hc2]
            have hne : ¬(p.2.coords.kilo_distance = some q') := by
              rw [hp]
              intro heq
              rw [Option.some.inj heq] at hc
              exact hc hc2
            rw [List.find?_cons_of_neg _ (by simp only [decide_eq_true_eq]; exact hne)]
          · rw [if_neg hc2]
            by_cases hc3 : ocmp (some d) (some q') = true
            · have hq : (if ocmp (some d) (some q') = true then d else q') = d :=
                if_pos hc3
              rw [hq, if_neg hc]
            · have hq : (if ocmp (some d) (some q') = true then d else q') = q' :=
                if_neg hc3
              rw [hq, if_neg hc2]

/-- Rewriting lemma: selection over a sequence with no defined distance. -/
theorem firstExtremal_none (ocmp : Option ℚ → Option ℚ → Bool) (l : Airplanes)
    (h : extDist ocmp l = none) : firstExtremal ocmp l = none := by
  unfold firstExtremal
  rw [h]

/-- Rewriting lemma: selection over a sequence with extremal distance `q`. -/
theorem firstExtremal_some (ocmp : Option ℚ → Option ℚ → Bool) (l : Airplanes)
    (q : ℚ) (h : extDist ocmp l = some q) :
    firstExtremal ocmp l =
      l.find? (fun p => decide (p.2.coords.kilo_distance = some q)) := by
  unfold firstExtremal
  rw [h]

/-- Closed form of the whole selection loop: the fold from an empty running
extremum returns the first entry in iteration order attaining the extremal
defined distance. -/
theorem foldl_selStep_eq (ocmp : Option ℚ → Option ℚ → Bool) (H : StrictCmp ocmp)
    (l : Airplanes) : l.foldl (selStep ocmp) none = firstExtremal ocmp l := by
  induction l with
  | nil => rfl
  | cons p t ih =>
    rw [List.foldl_cons]
    rcases hp : p.2.coords.kilo_distance with _ | d
    · rw [selStep_none_dist ocmp none p hp, ih]
      rcases het : extDist ocmp t with _ | q
      · rw [firstExtremal_none ocmp t het,
          firstExtremal_none ocmp (p :: t) (by rw [extDist_cons_none ocmp p t hp, het])]
      · rw [firstExtremal_some ocmp t q het,
          firstExtremal_some ocmp (p :: t) q
            (by rw [extDist_cons_none ocmp p t hp, het]),
          List.find?_cons_of_neg _ (by simp [hp])]
    · rw [selStep_some_none ocmp p d hp, foldl_selStep_some ocmp H t p d hp]
      rcases het : extDist ocmp t with _ | q'
      · rw [seeded_none ocmp p d t het,
          firstExtremal_some ocmp (p :: t) d (extDist_cons_some_none ocmp p t d hp het),
          List.find?_cons_of_pos _ (by simp [hp])]
      · rw [seeded_some ocmp p d q' t het,
          firstExtremal_some ocmp (p :: t) (if ocmp (some d) (some q') = true then d else q')
            (extDist_cons_some_some ocmp p t d q' hp het)]
        by_cases hc2 : ocmp (some q') (some d) = true
        · have hdq : ocmp (some d) (some q') = false := H.asymm q' d hc2
          have hq : (if ocmp (some d) (some q') = true then d else q') = q' :=
            if_neg (Bool.eq_false_iff.mp hdq)
          rw [hq, if_pos hc2]
          have hne : ¬(p.2.coords.kilo_distance = some q') := by
            rw [hp]
            intro heq
            have hd' : d = q' := Option.some.inj heq
            rw [hd'] at hc2
            rw [H.irrefl q'] at hc2
            exact Bool.noConfusion hc2
          rw [List.find?_cons_of_neg _ (by simp only [decide_eq_true_eq]; exact hne)]
        · rw [if_neg hc2]
          by_cases hc3 : ocmp (some d) (some q') = true
          · have hq : (if ocmp (some d) (some q') = true then d else q') = d :=
              if_pos hc3
            rw [hq, List.find?_cons_of_pos _ (by simp [hp])]
          · have hc2f : ocmp (some q') (some d) = false := Bool.eq_false_iff.mpr hc2
            have hc3f : ocmp (some d) (some q') = false := Bool.eq_false_iff.mpr hc3
            have hdq : d = q' := H.total d q' hc3f hc2f
            have hq : (if ocmp (some d) (some q') = true then d else q') = q' :=
              if_neg hc3
            rw [hq, List.find?_cons_of_pos _ (by simp [hp, hdq])]

/-- The extremal distance is `none` exactly when no entry has a defined
distance. -/
theorem extDist_none_iff (ocmp : Option ℚ → Option ℚ → Bool) (l : Airplanes) :
    extDist ocmp l = none ↔ ∀ p ∈ l, p.2.coords.kilo_distance = none := by
  induction l with
  | nil => simp [extDist]
  | cons p t ih =>
    rcases hp : p.2.coords.kilo_distance with _ | d
    · rw [extDist_cons_none ocmp p t hp]
      simp [List.forall_mem_cons, hp, ih]
    · rcases het : extDist ocmp t with _ | q'
      · rw [extDist_cons_some_none ocmp p t d hp het]
        simp [List.forall_mem_cons, hp]
      · rw [extDist_cons_some_some ocmp p t d q' hp het]
        simp [List.forall_mem_cons, hp]

/-- The extremal distance is a bound: no defined distance beats it. -/
theorem extDist_bound (ocmp : Option ℚ → Option ℚ → Bool) (H : StrictCmp ocmp)
    (l : Airplanes) :
    ∀ q, extDist ocmp l = some q →
      ∀ p ∈ l, ∀ d, p.2.coords.kilo_distance = some d →
        ocmp (some d) (some q) = false := by
  induction l with
  | nil =>
    intro q hq
    exact Option.noConfusion hq
  | cons p t ih =>
    intro q hq r hr d hd
    rcases hp : p.2.coords.kilo_distance with _ | d0
    · rw [extDist_cons_none ocmp p t hp] at hq
      rcases List.mem_cons.mp hr with rfl | hrt
      · rw [hp] at hd
        exact Option.noConfusion hd
      · exact ih q hq r hrt d hd
    · rcases het : extDist ocmp t with _ | q'
      · rw [extDist_cons_some_none ocmp p t d0 hp het] at hq
        have hq0 : d0 = q := Option.some.inj hq
        subst hq0
        rcases List.mem_cons.mp hr with rfl | hrt
        · rw [hp] at hd
          have hdd : d0 = d := Option.some.inj hd
          subst hdd
          exact H.irrefl d0
        · have hnone := (extDist_none_iff ocmp t).mp het r hrt
          rw [hnone] at hd
          exact Option.noConfusion hd
      · rw [extDist_cons_some_some ocmp p t d0 q' hp het] at hq
        have hq0 : (if ocmp (some d0) (some q') = true then d0 else q') = q :=
          Option.some.inj hq
        rcases List.mem_cons.mp hr with rfl | hrt
        · rw [hp] at hd
          have hdd : d0 = d := Option.some.inj hd
          subst hdd
          by_cases hc : ocmp (some d0) (some q') = true
          · rw [← hq0, if_pos hc]
            exact H.irrefl d0
          · rw [← hq0, if_neg hc]
            exact Bool.eq_false_iff.mpr hc
        · have hbq' := ih q' het r hrt d hd
          by_cases hc : ocmp (some d0) (some q') = true
          · rw [← hq0, if_pos hc]
            by_cases hdd : ocmp (some d) (some d0) = true
            · exact absurd (H.trans d d0 q' hdd hc)
                (Bool.eq_false_iff.mp hbq')
            · exact Bool.eq_false_iff.mpr hdd
          · rw [← hq0, if_neg hc]
            exact hbq'

/-- The extremal distance is attained by some entry. -/
theorem extDist_attained (ocmp : Option ℚ → Option ℚ → Bool) (l : Airplanes) :
    ∀ q, extDist ocmp l = some q → ∃ p ∈ l, p.2.coords.kilo_distance = some q := by
  induction l with
  | nil =>
    intro q hq
    exact Option.noConfusion hq
  | cons p t ih =>
    intro q hq
    rcases hp : p.2.coords.kilo_distance with _ | d0
    · rw [extDist_cons_none ocmp p t hp] at hq
      obtain ⟨r, hrt, hr⟩ := ih q hq
      exact ⟨r, List.mem_cons_of_mem p hrt, hr⟩
    · rcases het : extDist ocmp t with _ | q'
      · rw [extDist_cons_some_none ocmp p t d0 hp het] at hq
        have hq0 : d0 = q := Option.some.inj hq
        subst hq0
        exact ⟨p, List.mem_cons_self p t, hp⟩
      · rw [extDist_cons_some_some ocmp p t d0 q' hp het] at hq
        have hq0 : (if ocmp (some d0) (some q') = true then d0 else q') = q :=
          Option.some.inj hq
        by_cases hc : ocmp (some d0) (some q') = true
        · rw [if_pos hc] at hq0
          subst hq0
          exact ⟨p, List.mem_cons_self p t, hp⟩
        · rw [if_neg hc] at hq0
          subst hq0
          obtain ⟨r, hrt, hr⟩ := ih q' het
          exact ⟨r, List.mem_cons_of_mem p hrt, hr⟩

/-- C3: over a registry whose defined distances are pairwise distinct,
`closest_airplane` returns an entry of the registry holding the minimal
defined distance and `furthest_airplane` one holding the maximal defined
distance; entries without a defined distance are never selected (the
selected entry always has one); when no entry has a defined distance both
return `none`, and when at least one has, neither returns `none`. -/
theorem closest_furthest_extremal (l : Airplanes)
    (hdist : (l.filterMap (fun p => p.2.coords.kilo_distance)).Pairwise (· ≠ ·)) :
    ((∀ p ∈ l, p.2.coords.kilo_distance = none) →
      closest_airplane l = none ∧ furthest_airplane l = none) ∧
    (∀ i s, closest_airplane l = some (i, s) →
      (i, s) ∈ l ∧ ∃ q, s.coords.kilo_distance = some q ∧
        ∀ p ∈ l, ∀ d, p.2.coords.kilo_distance = some d → q ≤ d) ∧
    (∀ i s, furthest_airplane l = some (i, s) →
      (i, s) ∈ l ∧ ∃ q, s.coords.kilo_distance = some q ∧
        ∀ p ∈ l, ∀ d, p.2.coords.kilo_distance = some d → d ≤ q) ∧
    ((∃ p ∈ l, p.2.coords.kilo_distance ≠ none) →
      closest_airplane l ≠ none ∧ furthest_airplane l ≠ none) := by
  have hceq : closest_airplane l = firstExtremal optlt l :=
    foldl_selStep_eq optlt strictCmp_optlt l
  have hfeq : furthest_airplane l = firstExtremal optgt l :=
    foldl_selStep_eq optgt strictCmp_optgt l
  refine ⟨?_, ?_, ?_, ?_⟩
  · intro hall
    constructor
    · rw [hceq, firstExtremal_none optlt l ((extDist_none_iff optlt l).mpr hall)]
    · rw [hfeq, firstExtremal_none optgt l ((extDist_none_iff optgt l).mpr hall)]
  · intro i s hsel
    rw [hceq] at hsel
    rcases het : extDist optlt l with _ | q
    · rw [firstExtremal_none optlt l het] at hsel
      exact Option.noConfusion hsel
    · rw [firstExtremal_some optlt l q het] at hsel
      have hmem := List.mem_of_find?_eq_some hsel
      have hpred := List.find?_some hsel
      have hq : s.coords.kilo_distance = some q := of_decide_eq_true hpred
      refine ⟨hmem, q, hq, ?_⟩
      intro p hp d hd
      have hb := extDist_bound optlt strictCmp_optlt l q het p hp d hd
      simp only [optlt, decide_eq_false_iff_not] at hb
      exact not_lt.mp hb
  · intro i s hsel
    rw [hfeq] at hsel
    rcases het : extDist optgt l with _ | q
    · rw [firstExtremal_none optgt l het] at hsel
      exact Option.noConfusion hsel
    · rw [firstExtremal_some optgt l q het] at hsel
      have hmem := List.mem_of_find?_eq_some hsel
      have hpred := List.find?_some hsel
      have hq : s.coords.kilo_distance = some q := of_decide_eq_true hpred
      refine ⟨hmem, q, hq, ?_⟩
      intro p hp d hd
      have hb := extDist_bound optgt strictCmp_optgt l q het p hp d hd
      simp only [optgt, optlt, decide_eq_false_iff_not] at hb
      exact not_lt.mp hb
  · rintro ⟨p, hpl, hpd⟩
    constructor
    · rw [hceq]
      rcases het : extDist optlt l with _ | q
      · exact absurd ((extDist_none_iff optlt l).mp het p hpl) hpd
      · rw [firstExtremal_some optlt l q het]
        obtain ⟨r, hrl, hr⟩ := extDist_attained optlt l q het
        intro hnone
        have hmiss := List.find?_eq_none.mp hnone r hrl
        simp [hr] at hmiss
    · rw [hfeq]
      rcases het : extDist optgt l with _ | q
      · exact absurd ((extDist_none_iff optgt l).mp het p hpl) hpd
      · rw [firstExtremal_some optgt l q het]
        obtain ⟨r, hrl, hr⟩ := extDist_attained optgt l q het
        intro hnone
        have hmiss := List.find?_eq_none.mp hnone r hrl
        simp [hr] at hmiss

/-- Witness for C3: a registry with distances 3 (entry 1), undefined
(entry 2) and 7 (entry 3) satisfies the distinctness premise, and the
conclusion holds for it. -/
theorem closest_furthest_extremal_witness :
    (([(1, ⟨⟨some 3⟩⟩), (2, ⟨⟨none⟩⟩), (3, ⟨⟨some 7⟩⟩)] : Airplanes).filterMap
        (fun p => p.2.coords.kilo_distance)).Pairwise (· ≠ ·) ∧
    (((∀ p ∈ ([(1, ⟨⟨some 3⟩⟩), (2, ⟨⟨none⟩⟩), (3, ⟨⟨some 7⟩⟩)] : Airplanes),
        p.2.coords.kilo_distance = none) →
      closest_airplane [(1, ⟨⟨some 3⟩⟩), (2, ⟨⟨none⟩⟩), (3, ⟨⟨some 7⟩⟩)] = none ∧
      furthest_airplane [(1, ⟨⟨some 3⟩⟩), (2, ⟨⟨none⟩⟩), (3, ⟨⟨some 7⟩⟩)] = none) ∧
    (∀ i s, closest_airplane [(1, ⟨⟨some 3⟩⟩), (2, ⟨⟨none⟩⟩), (3, ⟨⟨some 7⟩⟩)] =
        some (i, s) →
      (i, s) ∈ ([(1, ⟨⟨some 3⟩⟩), (2, ⟨⟨none⟩⟩), (3, ⟨⟨some 7⟩⟩)] : Airplanes) ∧
      ∃ q, s.coords.kilo_distance = some q ∧
        ∀ p ∈ ([(1, ⟨⟨some 3⟩⟩), (2, ⟨⟨none⟩⟩), (3, ⟨⟨some 7⟩⟩)] : Airplanes),
          ∀ d, p.2.coords.kilo_distance = some d → q ≤ d) ∧
    (∀ i s, furthest_airplane [(1, ⟨⟨some 3⟩⟩), (2, ⟨⟨none⟩⟩), (3, ⟨⟨some 7⟩⟩)] =
        some (i, s) →
      (i, s) ∈ ([(1, ⟨⟨some 3⟩⟩), (2, ⟨⟨none⟩⟩), (3, ⟨⟨some 7⟩⟩)] : Airplanes) ∧
      ∃ q, s.coords.kilo_distance = some q ∧
        ∀ p ∈ ([(1, ⟨⟨some 3⟩⟩), (2, ⟨⟨none⟩⟩), (3, ⟨⟨some 7⟩⟩)] : Airplanes),
          ∀ d, p.2.coords.kilo_distance = some d → d ≤ q) ∧
    ((∃ p ∈ ([(1, ⟨⟨some 3⟩⟩), (2, ⟨⟨none⟩⟩), (3, ⟨⟨some 7⟩⟩)] : Airplanes),
        p.2.coords.kilo_distance ≠ none) →
      closest_airplane [(1, ⟨⟨some 3⟩⟩), (2, ⟨⟨none⟩⟩), (3, ⟨⟨some 7⟩⟩)] ≠ none ∧
      furthest_airplane [(1, ⟨⟨some 3⟩⟩), (2, ⟨⟨none⟩⟩), (3, ⟨⟨some 7⟩⟩)] ≠ none)) :=
  ⟨by decide, closest_furthest_extremal
    [(1, ⟨⟨some 3⟩⟩), (2, ⟨⟨none⟩⟩), (3, ⟨⟨some 7⟩⟩)] (by decide)⟩

/-- C4 counterexample: two registries with the same contents (they are
permutations of each other) in which both entries share the extremal
distance 5: the selection loops return different pairs on them, so the
selection is not independent of the map's iteration order. -/
theorem tie_break_order_dependent :
    ([(1, ⟨⟨some 5⟩⟩), (2, ⟨⟨some 5⟩⟩)] : Airplanes).Perm
      ([(2, ⟨⟨some 5⟩⟩), (1, ⟨⟨some 5⟩⟩)] : Airplanes) ∧
    closest_airplane [(1, ⟨⟨some 5⟩⟩), (2, ⟨⟨some 5⟩⟩)] ≠
      closest_airplane [(2, ⟨⟨some 5⟩⟩), (1, ⟨⟨some 5⟩⟩)] ∧
    furthest_airplane [(1, ⟨⟨some 5⟩⟩), (2, ⟨⟨some 5⟩⟩)] ≠
      furthest_airplane [(2, ⟨⟨some 5⟩⟩), (1, ⟨⟨some 5⟩⟩)] :=
  ⟨List.Perm.swap _ _ _, by decide, by decide⟩

/-- C4 amended: the selection is deterministic only relative to the
iteration sequence — both loops return the first entry in iteration order
attaining the extremal defined distance, so two evaluations over the same
iteration sequence agree, but (as the counterexample shows) permuting the
sequence can change which of several tied entries is returned. -/
theorem closest_furthest_first_in_order (l : Airplanes) :
    closest_airplane l = firstExtremal optlt l ∧
    furthest_airplane l = firstExtremal optgt l :=
  ⟨foldl_selStep_eq optlt strictCmp_optlt l, foldl_selStep_eq optgt strictCmp_optgt l⟩

/-- Witness for C2: the panic outcome instantiated at a concrete decoder
and configuration. -/
theorem short_line_panics_witness :
    loopBody Unit (fun _ => none) ⟨0, 0, "", ""⟩ (.line [10]) = .panic :=
  short_line_panics Unit (fun _ => none) ⟨0, 0, "", ""⟩

/-- Witness for C10: the skip-and-never-exit behaviour instantiated at a
concrete decoder and configuration. -/
theorem eof_read_is_skipped_witness :
    loopBody Unit (fun _ => none) ⟨0, 0, "", ""⟩ (.line []) = .next [] ∧
    ∀ r, loopBody Unit (fun _ => none) ⟨0, 0, "", ""⟩ r ≠ .exit :=
  eof_read_is_skipped Unit (fun _ => none) ⟨0, 0, "", ""⟩

/-- Witness for the amended C4: the first-in-iteration-order rule
instantiated at a concrete tied registry. -/
theorem closest_furthest_first_in_order_witness :
    closest_airplane [(1, ⟨⟨some 5⟩⟩), (2, ⟨⟨some 5⟩⟩)] =
      firstExtremal optlt [(1, ⟨⟨some 5⟩⟩), (2, ⟨⟨some 5⟩⟩)] ∧
    furthest_airplane [(1, ⟨⟨some 5⟩⟩), (2, ⟨⟨some 5⟩⟩)] =
      firstExtremal optgt [(1, ⟨⟨some 5⟩⟩), (2, ⟨⟨some 5⟩⟩)] :=
  closest_furthest_first_in_order [(1, ⟨⟨some 5⟩⟩), (2, ⟨⟨some 5⟩⟩)]

/-- Witness for the amended C9: the status-body contents instantiated at
concrete rendered coordinates and count. -/
theorem home_body_contents_witness :
    containsSub ("1.5".data) ((homeBody "1.5" "-2.25" 42).data) = true ∧
    containsSub ("-2.25".data) ((homeBody "1.5" "-2.25" 42).data) = true ∧
    containsSub ((toString 42).data) ((homeBody "1.5" "-2.25" 42).data) = true ∧
    containsSub ("/airplanes".data) ((homeBody "1.5" "-2.25" 42).data) = true ∧
    containsSub ("/airplanes/closest".data) ((homeBody "1.5" "-2.25" 42).data) = true ∧
    containsSub ("/airplanes/furthest".data) ((homeBody "1.5" "-2.25" 42).data) = true ∧
    containsSub ("/airplanes/:icao".data) ((homeBody "1.5" "-2.25" 42).data) = true ∧
    "/airplanes" ∈ routes ∧ "/airplanes/closest" ∉ routes ∧
    "/airplanes/furthest" ∉ routes ∧ "/airplanes/:icao" ∉ routes :=
  home_body_contents "1.5" "-2.25" 42
